import Mathlib

/-!
Verification development for debootstrap.py, a single-file Debian root
filesystem builder.  The Python source is embedded shallowly: pure string
manipulation is reimplemented over explicit character lists, the in-memory
filesystem model becomes explicit state passing over an association list,
and the unbounded recursion of symlink resolution is given a fuel
parameter (a result of none means the recursion did not finish within the
given fuel).  Fallible code returns Option.
-/

/-! ## String primitives

Kernel-reducible reimplementations of the string operations the source
relies on (str.split, str.startswith, str.lstrip and friends), written by
structural recursion over the character list of a string.
-/

/-- The character list of a string. -/
def chars (s : String) : List Char := s.data

/-- Build a string back from a character list. -/
def ofChars (l : List Char) : String := ⟨l⟩

/-- Python str.startswith. -/
def startsWithS (s pre : String) : Bool := pre.data.isPrefixOf s.data

/-- Python str.endswith. -/
def endsWithS (s suf : String) : Bool := suf.data.isSuffixOf s.data

/-- Drop the first n characters of a string. -/
def dropS (s : String) (n : Nat) : String := ofChars (s.data.drop n)

/-- Drop the last n characters of a string. -/
def dropRightS (s : String) (n : Nat) : String := ofChars (s.data.take (s.data.length - n))

/-- Helper for splitting a character list on a single separator character. -/
def splitOnCharAux (sep : Char) : List Char → List Char → List (List Char)
  | cur, [] => [cur.reverse]
  | cur, c :: rest =>
    if c == sep then cur.reverse :: splitOnCharAux sep [] rest
    else splitOnCharAux sep (c :: cur) rest

/-- Python name.split sep for a one-character separator; keeps empty parts,
and the split of the empty string is a singleton list of the empty string. -/
def splitChar (sep : Char) (s : String) : List String :=
  (splitOnCharAux sep [] s.data).map ofChars

/-- Join a list of strings with the slash separator (os.path sep.join). -/
def joinSlash : List String → String
  | [] => ""
  | [x] => x
  | x :: rest => x ++ "/" ++ joinSlash rest

/-- Python empty-string join: concatenation of a list of strings. -/
def joinAll (l : List String) : String := l.foldl (fun a b => a ++ b) ""

/-- A run of n slash characters. -/
def slashes (n : Nat) : String := ofChars (List.replicate n '/')

/-! ## posixpath

Faithful reimplementations of posixpath.dirname, posixpath.join and
posixpath.normpath, as used by Filesystem.resolve and Filesystem.add.
-/

/-- posixpath.dirname: everything before the final slash; a head made only
of slashes is kept as is, otherwise trailing slashes are stripped. -/
def dirname (p : String) : String :=
  let cs := p.data
  let head := (cs.reverse.dropWhile (fun c => !(c == '/'))).reverse
  if head.isEmpty ∨ head.all (fun c => c == '/') then ofChars head
  else ofChars ((head.reverse.dropWhile (fun c => c == '/')).reverse)

/-- posixpath.join for two components. -/
def pjoin (a b : String) : String :=
  if startsWithS b "/" then b
  else if a = "" ∨ endsWithS a "/" then a ++ b
  else a ++ "/" ++ b

/-- The component-stack fold inside posixpath.normpath. -/
def normpathFold (slashCount : Nat) : List String → List String → List String
  | acc, [] => acc
  | acc, comp :: rest =>
    if comp = "" ∨ comp = "." then normpathFold slashCount acc rest
    else if comp ≠ ".." ∨ (slashCount = 0 ∧ acc = []) ∨ (acc ≠ [] ∧ acc.getLast? = some "..") then
      normpathFold slashCount (acc ++ [comp]) rest
    else if acc ≠ [] then normpathFold slashCount acc.dropLast rest
    else normpathFold slashCount acc rest

/-- posixpath.normpath: collapse duplicate slashes, drop single dots and
resolve double dots lexically, preserving one or two leading slashes. -/
def normpath (p : String) : String :=
  if p = "" then "."
  else
    let slashCount : Nat :=
      if startsWithS p "/" then
        if startsWithS p "//" ∧ ¬ startsWithS p "///" then 2 else 1
      else 0
    let comps := splitChar '/' p
    let newComps := normpathFold slashCount [] comps
    let out := slashes slashCount ++ joinSlash newComps
    if out = "" then "." else out

/-! ## Association lists

Python dict, modelled as an association list whose update replaces the
value in place when the key is present (keeping insertion order) and
appends otherwise; equality of two dicts compares key sets and values,
ignoring order.
-/

/-- Python dict lookup returning none when the key is missing. -/
def alistGet {α : Type} (d : List (String × α)) (k : String) : Option α :=
  (d.find? (fun kv => kv.1 == k)).map (fun kv => kv.2)

/-- Python dict item assignment d[k] = v. -/
def alistSet {α : Type} (d : List (String × α)) (k : String) (v : α) : List (String × α) :=
  if (d.find? (fun kv => kv.1 == k)).isSome then
    d.map (fun kv => if kv.1 == k then (kv.1, v) else kv)
  else d ++ [(k, v)]

/-- Python dict equality for string-to-string dicts: mutual containment of
key-value pairs, insensitive to insertion order. -/
def dictBeq (a b : List (String × String)) : Bool :=
  a.all (fun kv => alistGet b kv.1 == some kv.2) &&
  b.all (fun kv => alistGet a kv.1 == some kv.2)

/-! ## Tar entries (tarfile.TarInfo) and the Filesystem model -/

/-- tarfile type flag for a regular file, the TarInfo default. -/
def REGTYPE : Nat := 48

/-- tarfile type flag for a symbolic link. -/
def SYMTYPE : Nat := 50

/-- tarfile type flag for a character device. -/
def CHRTYPE : Nat := 51

/-- tarfile type flag for a directory. -/
def DIRTYPE : Nat := 53

/-- Extended (pax) headers of a tar entry: a string-to-string dict. -/
abbrev Pax := List (String × String)

/-- A tarfile.TarInfo header record, with the TarInfo constructor defaults. -/
structure TarEntry where
  name : String
  mode : Nat := 0o644
  uid : Nat := 0
  gid : Nat := 0
  size : Nat := 0
  mtime : Nat := 0
  ttype : Nat := REGTYPE
  linkname : String := ""
  uname : String := ""
  gname : String := ""
  devmajor : Nat := 0
  devminor : Nat := 0
  pax_headers : Pax := []
deriving DecidableEq

/-- File contents (a byte buffer). -/
abbrev ByteSeq := List Nat

/-- Filesystem._files: a mapping from canonical path to the pair of the
tar entry and its optional contents.  Keys stay unique because entries are
only appended when the key is absent. -/
abbrev Fs := List (String × (TarEntry × Option ByteSeq))

/-- Lookup of a stored entry by name (self._files[name]). -/
def lookupFs (fs : Fs) (n : String) : Option (TarEntry × Option ByteSeq) :=
  (fs.find? (fun kv => kv.1 == n)).map (fun kv => kv.2)

/-- The in-place mutation existing.mtime = max(existing.mtime, ti.mtime)
performed by Filesystem.add on the stored entry under key n. -/
def mapMtimeMax (fs : Fs) (n : String) (m : Nat) : Fs :=
  fs.map (fun kv =>
    if kv.1 == n then (kv.1, ({ kv.2.1 with mtime := max kv.2.1.mtime m }, kv.2.2))
    else kv)

/-- Does the key currently map to a symlink entry? -/
def isSymKey (fs : Fs) (k : String) : Bool :=
  match lookupFs fs k with
  | some (e, _) => e.ttype == SYMTYPE
  | none => false

/-- Filesystem.resolve with fuel: follow the chain of whole-path symlink
redirections until the name is not a symlink; none when the fuel runs out,
which models non-termination of the unbounded Python recursion. -/
def resolveF : Nat → Fs → String → Option String
  | 0, _, _ => none
  | fuel + 1, fs, name =>
    match lookupFs fs name with
    | none => some name
    | some (info, _) =>
      if info.ttype = SYMTYPE then
        resolveF fuel fs (normpath (pjoin (dirname name) info.linkname))
      else some name

/-- The loop of Filesystem._build_path: repeatedly pop the next component
and resolve the accumulated path. -/
def buildPathGo (fuel : Nat) (fs : Fs) : String → List String → Option String
  | ret, [] => some ret
  | ret, c :: rest =>
    match resolveF fuel fs (pjoin ret c) with
    | none => none
    | some r => buildPathGo fuel fs r rest

/-- Filesystem._build_path with fuel. -/
def buildPathF (fuel : Nat) (fs : Fs) (name : String) : Option String :=
  buildPathGo fuel fs "" (splitChar '/' name)

/-- extract_useful: the attribute tuple compared by Filesystem.add on a
name collision.  Note the tuple does not include mtime. -/
def extract_useful (ti : TarEntry) :
    String × Nat × Nat × Nat × Nat × Nat × String × String × Pax :=
  (ti.name, ti.mode, ti.uid, ti.gid, ti.size, ti.ttype, ti.uname, ti.gname, ti.pax_headers)

/-- Equality of two useful-attribute tuples, comparing the pax-header dicts
with Python dict equality. -/
def usefulBeq (u v : String × Nat × Nat × Nat × Nat × Nat × String × String × Pax) : Bool :=
  u.1 == v.1 && u.2.1 == v.2.1 && u.2.2.1 == v.2.2.1 && u.2.2.2.1 == v.2.2.2.1 &&
  u.2.2.2.2.1 == v.2.2.2.2.1 && u.2.2.2.2.2.1 == v.2.2.2.2.2.1 &&
  u.2.2.2.2.2.2.1 == v.2.2.2.2.2.2.1 && u.2.2.2.2.2.2.2.1 == v.2.2.2.2.2.2.2.1 &&
  dictBeq u.2.2.2.2.2.2.2.2 v.2.2.2.2.2.2.2.2

/-- Filesystem.add: canonicalize the name, blank the ownership names, then
merge with an existing entry (bumping its mtime to the maximum and raising
on a useful-attribute mismatch, modelled as some error-name), drop empty
names, and otherwise store the entry.  The returned pair is the filesystem
after the call together with the optional error payload of the raise. -/
def addF (fuel : Nat) (fs : Fs) (ti0 : TarEntry) (fileobj : Option ByteSeq) :
    Option (Fs × Option String) :=
  match buildPathF fuel fs ti0.name with
  | none => none
  | some n =>
    let ti : TarEntry := { ti0 with name := n, uname := "", gname := "" }
    match lookupFs fs n with
    | some (ex, _) =>
      let fs2 := mapMtimeMax fs n ti.mtime
      let ex2 : TarEntry := { ex with mtime := max ex.mtime ti.mtime }
      if usefulBeq (extract_useful ti) (extract_useful ex2) then some (fs2, none)
      else some (fs2, some n)
    | none =>
      if n = "" then some (fs, none)
      else some (fs ++ [(n, (ti, fileobj))], none)

/-- Filesystem.mkdir. -/
def mkdirF (fuel : Nat) (fs : Fs) (name : String) : Option (Fs × Option String) :=
  addF fuel fs { name := name, ttype := DIRTYPE, mode := 0o755 } none

/-- Filesystem.symlink. -/
def symlinkF (fuel : Nat) (fs : Fs) (name target : String) : Option (Fs × Option String) :=
  addF fuel fs { name := name, ttype := SYMTYPE, linkname := target } none

/-- Filesystem.file. -/
def fileF (fuel : Nat) (fs : Fs) (name : String) (contents : ByteSeq) (mode : Option Nat) :
    Option (Fs × Option String) :=
  match mode with
  | some m => addF fuel fs { name := name, size := contents.length, mode := m } (some contents)
  | none => addF fuel fs { name := name, size := contents.length } (some contents)

/-- Filesystem.mknod. -/
def mknodF (fuel : Nat) (fs : Fs) (name : String) (major minor : Nat) :
    Option (Fs × Option String) :=
  addF fuel fs { name := name, ttype := CHRTYPE, devmajor := major, devminor := minor } none

/-- Filesystem states reachable from the empty filesystem by successful
(error-free) mkdir, symlink, file, mknod and add operations. -/
inductive Reach : Fs → Prop
  | init : Reach []
  | mkdir {fs fs' : Fs} {fuel : Nat} {name : String} :
      Reach fs → mkdirF fuel fs name = some (fs', none) → Reach fs'
  | symlink {fs fs' : Fs} {fuel : Nat} {name target : String} :
      Reach fs → symlinkF fuel fs name target = some (fs', none) → Reach fs'
  | file {fs fs' : Fs} {fuel : Nat} {name : String} {contents : ByteSeq} {mode : Option Nat} :
      Reach fs → fileF fuel fs name contents mode = some (fs', none) → Reach fs'
  | mknod {fs fs' : Fs} {fuel : Nat} {name : String} {major minor : Nat} :
      Reach fs → mknodF fuel fs name major minor = some (fs', none) → Reach fs'
  | add {fs fs' : Fs} {fuel : Nat} {ti : TarEntry} {cont : Option ByteSeq} :
      Reach fs → addF fuel fs ti cont = some (fs', none) → Reach fs'

/-! ## Package index parser (FIELDS, FIELDS_MATCHER, packages_dict) -/

/-- The FIELDS tuple: the only field names FIELDS_MATCHER recognizes. -/
def FIELDS : List String :=
  ["Package", "Filename", "Version", "Priority", "SHA256", "Depends", "Pre-Depends"]

/-- A parsed package record: a dict from field name to value. -/
abbrev PkgRec := List (String × String)

/-- Strip the single trailing newline a text-mode line carries, mirroring
how the dollar anchor of FIELDS_MATCHER stops before a final newline. -/
def stripNl (line : String) : String :=
  if endsWithS line "\n" then dropRightS line 1 else line

/-- Match one field alternative of FIELDS_MATCHER against a line body. -/
def fieldOf (core : String) (f : String) : Option (String × String) :=
  if startsWithS core (f ++ ": ") then some (f, dropS core (f.length + 2)) else none

/-- First FIELDS alternative that matches the line body, in tuple order. -/
def findFieldIn : List String → String → Option (String × String)
  | [], _ => none
  | f :: rest, core =>
    match fieldOf core f with
    | some kv => some kv
    | none => findFieldIn rest core

/-- FIELDS_MATCHER.match: a line matches when, after removing its trailing
newline, it reads as a recognized field name, a colon-space, and a value. -/
def matchField (line : String) : Option (String × String) :=
  findFieldIn FIELDS (stripNl line)

/-- The loop of packages_dict: flush the current stanza into the result on
a blank line, then record the line when it matches FIELDS_MATCHER.  The
flush reads package["Package"]; the KeyError raised when that field is
missing is modelled as none for the whole run. -/
def packagesLoop : List (String × PkgRec) → PkgRec → List String → Option (List (String × PkgRec))
  | ret, package, [] =>
    if package.isEmpty then some ret
    else (alistGet package "Package").map (fun nm => alistSet ret nm package)
  | ret, package, line :: rest =>
    if line = "\n" ∧ ¬ package.isEmpty then
      match alistGet package "Package" with
      | none => none
      | some nm =>
        match matchField line with
        | some (k, v) => packagesLoop (alistSet ret nm package) (alistSet ([] : PkgRec) k v) rest
        | none => packagesLoop (alistSet ret nm package) [] rest
    else
      match matchField line with
      | some (k, v) => packagesLoop ret (alistSet package k v) rest
      | none => packagesLoop ret package rest

/-- packages_dict over the lines of a Packages index file. -/
def packages_dict (lines : List String) : Option (List (String × PkgRec)) :=
  packagesLoop [] [] lines

/-! ## HTTP fetcher (fetch_http) -/

/-- An HTTP response as the fetcher sees it: the status, the Location
header, the integer epoch value parsed from the Date header by the stdlib
http2time, and the body bytes. -/
structure HttpResp where
  status : Nat
  location : String := ""
  dateEpoch : Int := 0
  body : ByteSeq := []
deriving DecidableEq

/-- One outcome of conn.getresponse inside the retry loop of fetch_http:
either the peer disconnected before the response headers, or a response
arrived. -/
inductive FetchEvent
  | remoteDisconnected
  | response (r : HttpResp)
deriving DecidableEq

/-- The while-True loop of fetch_http, over the sequence of getresponse
outcomes: a disconnect falls through to another request, a response breaks
out of the loop.  none means the loop was still running when the supplied
outcome sequence was exhausted. -/
def fetchAttempts : List FetchEvent → Option HttpResp
  | [] => none
  | .remoteDisconnected :: rest => fetchAttempts rest
  | .response r :: _ => some r

/-- fetch_http: the retry loop, then the follow-once handling of a 302
status.  Each element of the outer list is the outcome sequence of one
request target (the original target, then each redirect target). -/
def fetch_http_model : List (List FetchEvent) → Nat → Option HttpResp
  | [], _ => none
  | evs :: more, follow_redirects =>
    match fetchAttempts evs with
    | none => none
    | some r =>
      if r.status = 302 ∧ 0 < follow_redirects then fetch_http_model more (follow_redirects - 1)
      else some r

/-! ## Disk cache (download_cached) -/

/-- One filesystem effect performed by the disk cache.  renameInto is the
atomic temporary-file-plus-rename operation the spec describes; it is part
of the effect vocabulary so that its absence from a trace is meaningful. -/
inductive CacheOp
  | mkdirParents (p : String)
  | writeBytes (p : String) (data : ByteSeq)
  | renameInto (src dst : String)
  | utimeSet (p : String) (t : Int)
deriving DecidableEq

/-- Does a cache operation rename a file into place? -/
def isRenameOp : CacheOp → Bool
  | .renameInto _ _ => true
  | _ => false

/-- The destination path CACHE_PATH / (netloc + path) of download_cached. -/
def cacheDest (netloc p : String) : String := "debs/" ++ (netloc ++ p)

/-- download_cached from the point the HTTP response is available: on 304
return the cached bytes; on any other non-200 status raise (none); on 200
create the parent directory, write the body directly to the destination
path and set its mtime to the epoch seconds parsed from the Date header.
The result pairs the trace of disk effects with the returned bytes. -/
def download_cached_ops (netloc p : String) (r : HttpResp) (cachedBytes : ByteSeq) :
    Option (List CacheOp × ByteSeq) :=
  let destination := cacheDest netloc p
  if r.status = 304 then some ([], cachedBytes)
  else if r.status ≠ 200 then none
  else
    some ([CacheOp.mkdirParents (dirname destination),
           CacheOp.writeBytes destination r.body,
           CacheOp.utimeSet destination r.dateEpoch], r.body)

/-! ## Signature verifier (_gpg_verify status parsing) -/

/-- One line of the gpgv status stream, after the lexing the source
performs: lines without the GNUPG status marker are irrelevant, a NEWSIG
opcode line is a signature boundary, and any other status line splits into
an opcode and its remainder. -/
inductive StatusLine
  | irrelevant
  | newsig
  | stat (opcode : String) (rest : String)
deriving DecidableEq

/-- The per-signature accumulator: a dict from opcode to remainder. -/
abbrev SigAcc := List (String × String)

/-- good_to_return: the accumulator holds both a GOODSIG and a VALIDSIG. -/
def goodAcc (ret : SigAcc) : Bool :=
  (alistGet ret "GOODSIG").isSome && (alistGet ret "VALIDSIG").isSome

/-- The status-line loop of _gpg_verify: on NEWSIG return the accumulator
when it is good, otherwise reset it; record any other status line; after
the stream ends return the final accumulator exactly when it is good. -/
def gpgLoop (ret : SigAcc) : List StatusLine → Option SigAcc
  | [] => if goodAcc ret then some ret else none
  | .irrelevant :: rest => gpgLoop ret rest
  | .newsig :: rest => if goodAcc ret then some ret else gpgLoop [] rest
  | .stat opcode r :: rest => gpgLoop (alistSet ret opcode r) rest

/-- _gpg_verify on a status stream: some accumulator on success, none on
verification failure. -/
def gpgVerifyCore (lines : List StatusLine) : Option SigAcc := gpgLoop [] lines

/-- Modelled from the spec wording of the claim: the accumulators in
effect at each NEWSIG line (resetting unconditionally there), followed by
the final accumulator after the stream ends. -/
def specCheckpoints (ret : SigAcc) : List StatusLine → List SigAcc
  | [] => [ret]
  | .irrelevant :: rest => specCheckpoints ret rest
  | .newsig :: rest => ret :: specCheckpoints [] rest
  | .stat opcode r :: rest => specCheckpoints (alistSet ret opcode r) rest

/-! ## Archive unpacker (unpack_ar data entries and the list manifest) -/

/-- member.name.lstrip with the two-character set of dot and slash: all
leading dot or slash characters are removed. -/
def pyLstripDotSlash (s : String) : String :=
  ofChars (s.data.dropWhile (fun c => c == '.' || c == '/'))

/-- transform_name: the manifest line for one data-archive entry name. -/
def transform_name (name : String) : String :=
  if name = "" then "/.\n" else "/" ++ name ++ "\n"

/-- The data.tar loop of unpack_ar over the entry names: each name is
rewritten with lstrip and yielded, and its manifest line is appended to
the files list.  Returns the yielded names and the files list. -/
def unpack_data : List String → List String × List String
  | [] => ([], [])
  | nm :: rest =>
    (pyLstripDotSlash nm :: (unpack_data rest).1,
     transform_name (pyLstripDotSlash nm) :: (unpack_data rest).2)

/-- The body of the synthesized list info file: the joined files list. -/
def files_manifest (names : List String) : String := joinAll (unpack_data names).2

/-- Modelled from the spec wording of the claim: strip exactly one leading
dot-slash from a name and remove nothing else. -/
def stripOnceSpec (s : String) : String :=
  if startsWithS s "./" then dropS s 2 else s

/-! ## Output filter (mutate_file, output_filter) -/

/-- mutate_file: drop the two runtime-injected names; otherwise force the
mtime to the stored mtime of the filesystem record for this name, or to 0
when there is no record.  Returns the keep decision and the entry after
mutation. -/
def mutate_file (fs : Fs) (ti : TarEntry) : Bool × TarEntry :=
  if ti.name = ".dockerenv" then (false, ti)
  else if ti.name = "etc/resolv.conf" then (false, ti)
  else
    match lookupFs fs ti.name with
    | some (original, _) =>
      (true, if original.mtime ≠ ti.mtime then { ti with mtime := original.mtime } else ti)
    | none => (true, { ti with mtime := 0 })

/-- The mtime mutate_file forces on a kept entry with this name. -/
def modelMtime (fs : Fs) (nm : String) : Nat :=
  match lookupFs fs nm with
  | some (e, _) => e.mtime
  | none => 0

/-- The synthetic resolv.conf symlink output_filter appends at the end. -/
def resolvEntry : TarEntry :=
  { name := "etc/resolv.conf", ttype := SYMTYPE,
    linkname := "/run/systemd/resolve/stub-resolv.conf" }

/-- The entry stream output_filter emits for a stream of input headers:
the mutate_file survivors, then the synthetic resolv.conf symlink. -/
def output_filter_entries (fs : Fs) (tis : List TarEntry) : List TarEntry :=
  (tis.filterMap (fun ti =>
    let r := mutate_file fs ti
    if r.1 then some r.2 else none)) ++ [resolvEntry]

/-! ## Concrete states and entries used by the claims -/

/-- The directory entry stored by mkdir of a/b. -/
def dirEntryAB : TarEntry := { name := "a/b", mode := 0o755, ttype := DIRTYPE }

/-- The symlink entry stored by symlink of a to c. -/
def symEntryA : TarEntry := { name := "a", ttype := SYMTYPE, linkname := "c" }

/-- The filesystem after mkdir a/b on the empty filesystem. -/
def fsA : Fs := [("a/b", (dirEntryAB, none))]

/-- The filesystem after mkdir a/b, then symlink a to c. -/
def fsAB : Fs := [("a/b", (dirEntryAB, none)), ("a", (symEntryA, none))]

/-- The filesystem after symlink a to a on the empty filesystem: a
self-referential symlink. -/
def fsCyc : Fs := [("a", ({ name := "a", ttype := SYMTYPE, linkname := "a" }, none))]

/-- A re-added directory entry matching dirEntryAB on all useful
attributes, with a larger mtime. -/
def tiMatch : TarEntry := { name := "a/b", mode := 0o755, ttype := DIRTYPE, mtime := 9 }

/-- A colliding directory entry differing from dirEntryAB in mode. -/
def tiClash : TarEntry := { name := "a/b", mode := 0o700, ttype := DIRTYPE, mtime := 9 }

/-- Index lines carrying an Architecture and a Multi-Arch field. -/
def c3Lines : List String := ["Package: a\n", "Architecture: amd64\n", "Multi-Arch: same\n"]

/-- Index lines carrying only recognized fields. -/
def c3LinesOk : List String := ["Package: a\n", "Filename: f\n"]

/-- The record parsed from c3LinesOk. -/
def c3RecOk : PkgRec := [("Package", "a"), ("Filename", "f")]

/-- A status stream with a good signature followed by a second good one. -/
def c6Lines : List StatusLine :=
  [StatusLine.stat "GOODSIG" "x", StatusLine.stat "VALIDSIG" "y", StatusLine.newsig,
   StatusLine.stat "GOODSIG" "z", StatusLine.stat "VALIDSIG" "w"]

/-- The accumulator of the first signature of c6Lines. -/
def c6AccFirst : SigAcc := [("GOODSIG", "x"), ("VALIDSIG", "y")]

/-- The final accumulator of c6Lines, in effect when the stream ends. -/
def c6AccFinal : SigAcc := [("GOODSIG", "z"), ("VALIDSIG", "w")]

/-- A concrete 200 response for the cache claims. -/
def r200 : HttpResp := { status := 200, dateEpoch := 5, body := [1] }

/-- A header entry exported by the runtime, known to the model under a/b. -/
def wTi : TarEntry := { name := "a/b", mtime := 7 }

/-! ## Helper lemmas -/

/-- The splitting helper never returns an empty list of parts. -/
theorem splitOnCharAux_ne_nil (sep : Char) :
    ∀ (l cur : List Char), splitOnCharAux sep cur l ≠ [] := by
  intro l
  induction l with
  | nil => intro cur; simp [splitOnCharAux]
  | cons c rest ih =>
    intro cur
    by_cases h : (c == sep) = true
    · simp [splitOnCharAux, h]
    · simp only [splitOnCharAux, Bool.not_eq_true] at *
      simp [h, ih]

/-- str.split always produces at least one part. -/
theorem splitChar_ne_nil (sep : Char) (s : String) : splitChar sep s ≠ [] := by
  unfold splitChar
  intro h
  exact splitOnCharAux_ne_nil sep s.data [] (List.map_eq_nil_iff.mp h)

/-- A name returned by resolve does not map to a symlink entry. -/
theorem resolveF_not_sym :
    ∀ (fuel : Nat) (fs : Fs) (x r : String),
    resolveF fuel fs x = some r → isSymKey fs r = false := by
  intro fuel
  induction fuel with
  | zero => intro fs x r h; simp [resolveF] at h
  | succ n ih =>
    intro fs x r h
    unfold resolveF at h
    split at h
    case _ heq =>
      cases h
      simp [isSymKey, heq]
    case _ info c heq =>
      split at h
      case isTrue hs => exact ih fs _ r h
      case isFalse hs =>
        cases h
        simp only [isSymKey, heq]
        exact beq_eq_false_iff_ne.mpr hs

/-- A nonempty component loop of _build_path ends in a resolve call, so
its result does not map to a symlink entry. -/
theorem buildPathGo_not_sym (fuel : Nat) (fs : Fs) :
    ∀ (comps : List String) (ret k : String), comps ≠ [] →
    buildPathGo fuel fs ret comps = some k → isSymKey fs k = false := by
  intro comps
  induction comps with
  | nil => intro ret k hne; exact absurd rfl hne
  | cons c rest ih =>
    intro ret k _ h
    simp only [buildPathGo] at h
    cases hr : resolveF fuel fs (pjoin ret c) with
    | none => rw [hr] at h; cases h
    | some r =>
      rw [hr] at h
      cases rest with
      | nil =>
        simp only [buildPathGo] at h
        cases h
        exact resolveF_not_sym fuel fs (pjoin ret c) k hr
      | cons d tail => exact ih r k (by simp) h

/-- Lookup after the mtime merge: the merged key answers with its mtime
raised to the maximum, every other key answers unchanged. -/
theorem lookupFs_mapMtimeMax (n : String) (m : Nat) :
    ∀ (fs : Fs) (k : String),
    lookupFs (mapMtimeMax fs n m) k =
      (lookupFs fs k).map
        (fun p => if k = n then ({ p.1 with mtime := max p.1.mtime m }, p.2) else p) := by
  intro fs
  induction fs with
  | nil => intro k; rfl
  | cons kv rest ih =>
    obtain ⟨k1, e1, c1⟩ := kv
    intro k
    by_cases h1 : k1 = n
    · by_cases h2 : k1 = k
      · subst h1; subst h2
        simp [lookupFs, mapMtimeMax, List.find?_cons]
      · have hb : (k1 == k) = false := beq_eq_false_iff_ne.mpr h2
        have hkn : ¬ k = n := fun hc => h2 (h1.trans hc.symm)
        subst h1
        simp only [mapMtimeMax, List.map_cons, lookupFs, List.find?_cons, beq_self_eq_true,
          if_true, hb]
        have := ih k
        simp only [lookupFs, mapMtimeMax] at this
        simpa [hb] using this
    · have hb : (k1 == n) = false := beq_eq_false_iff_ne.mpr h1
      by_cases h2 : k1 = k
      · subst h2
        simp [lookupFs, mapMtimeMax, List.find?_cons, hb, fun hc => h1 hc]
      · have hbk : (k1 == k) = false := beq_eq_false_iff_ne.mpr h2
        simp only [mapMtimeMax, List.map_cons, lookupFs, List.find?_cons, hb, if_false, hbk]
        have := ih k
        simp only [lookupFs, mapMtimeMax] at this
        simpa [hbk] using this

/-- The useful-attribute tuple ignores the mtime field. -/
theorem extract_useful_mtime (ex : TarEntry) (m : Nat) :
    extract_useful { ex with mtime := m } = extract_useful ex := rfl

/-- A member of an updated dict is a member of the old dict or the new
key-value pair. -/
theorem mem_alistSet {α : Type} (d : List (String × α)) (k : String) (v : α)
    (x : String × α) (hx : x ∈ alistSet d k v) : x ∈ d ∨ x = (k, v) := by
  unfold alistSet at hx
  split at hx
  · obtain ⟨y, hy, hxy⟩ := List.mem_map.mp hx
    by_cases hk : (y.1 == k) = true
    · right
      rw [if_pos hk] at hxy
      rw [← hxy, beq_iff_eq.mp hk]
    · left
      rw [if_neg hk] at hxy
      rw [← hxy]
      exact hy
  · rcases List.mem_append.mp hx with h | h
    · exact Or.inl h
    · exact Or.inr (List.mem_singleton.mp h)

/-- A single field alternative only ever reports its own field name. -/
theorem fieldOf_key (core f : String) (k v : String)
    (h : fieldOf core f = some (k, v)) : k = f := by
  unfold fieldOf at h
  split at h
  · injection h with h2
    exact (congrArg Prod.fst h2).symm
  · cases h

/-- The field scan only reports names from the list it scans. -/
theorem findFieldIn_key :
    ∀ (fl : List String) (core : String) (k v : String),
    findFieldIn fl core = some (k, v) → k ∈ fl := by
  intro fl
  induction fl with
  | nil => intro core k v h; cases h
  | cons f rest ih =>
    intro core k v h
    unfold findFieldIn at h
    cases hf : fieldOf core f with
    | some kv =>
      rw [hf] at h
      injection h with h2
      have hk : k = f := fieldOf_key core f k v (hf.trans (congrArg some h2))
      exact hk ▸ List.mem_cons_self f rest
    | none =>
      rw [hf] at h
      exact List.mem_cons_of_mem f (ih core k v h)

/-- FIELDS_MATCHER only matches the recognized field names. -/
theorem matchField_key (line k v : String)
    (h : matchField line = some (k, v)) : k ∈ FIELDS :=
  findFieldIn_key FIELDS (stripNl line) k v h

/-- Invariant of the packages_dict loop: when the accumulated result and
the current stanza hold only recognized field names, so does any final
result of the loop. -/
theorem packagesLoop_only_fields :
    ∀ (lines : List String) (ret0 : List (String × PkgRec)) (pkg0 : PkgRec),
    (∀ nm pr, (nm, pr) ∈ ret0 → ∀ k v, (k, v) ∈ pr → k ∈ FIELDS) →
    (∀ k v, (k, v) ∈ pkg0 → k ∈ FIELDS) →
    ∀ ret, packagesLoop ret0 pkg0 lines = some ret →
    ∀ nm pr, (nm, pr) ∈ ret → ∀ k v, (k, v) ∈ pr → k ∈ FIELDS := by
  intro lines
  induction lines with
  | nil =>
    intro ret0 pkg0 hret hpkg ret h nm pr hmem k v hkv
    simp only [packagesLoop] at h
    split at h
    · cases h
      exact hret nm pr hmem k v hkv
    · cases hg : alistGet pkg0 "Package" with
      | none => rw [hg] at h; cases h
      | some nm0 =>
        rw [hg, Option.map_some'] at h
        injection h with h2
        subst h2
        rcases mem_alistSet ret0 nm0 pkg0 (nm, pr) hmem with hin | hnew
        · exact hret nm pr hin k v hkv
        · injection hnew with e1 e2
          exact hpkg k v (e2 ▸ hkv)
  | cons line rest ih =>
    intro ret0 pkg0 hret hpkg ret h nm pr hmem k v hkv
    simp only [packagesLoop] at h
    split at h
    · -- flush branch
      cases hg : alistGet pkg0 "Package" with
      | none => rw [hg] at h; cases h
      | some nm0 =>
        rw [hg] at h
        have hret1 : ∀ nm2 pr2, (nm2, pr2) ∈ alistSet ret0 nm0 pkg0 →
            ∀ k2 v2, (k2, v2) ∈ pr2 → k2 ∈ FIELDS := by
          intro nm2 pr2 hm2 k2 v2 hkv2
          rcases mem_alistSet ret0 nm0 pkg0 (nm2, pr2) hm2 with hin | hnew
          · exact hret nm2 pr2 hin k2 v2 hkv2
          · injection hnew with e1 e2
            exact hpkg k2 v2 (e2 ▸ hkv2)
        cases hm : matchField line with
        | some kv =>
          obtain ⟨k2, v2⟩ := kv
          rw [hm] at h
          refine ih (alistSet ret0 nm0 pkg0) (alistSet [] k2 v2) hret1 ?_ ret h nm pr hmem k v hkv
          intro k3 v3 hkv3
          rcases mem_alistSet [] k2 v2 (k3, v3) hkv3 with hin | hnew
          · cases hin
          · injection hnew with e1 e2
            exact e1 ▸ matchField_key line k2 v2 hm
        | none =>
          rw [hm] at h
          exact ih (alistSet ret0 nm0 pkg0) [] hret1 (by intro k3 v3 hkv3; cases hkv3)
            ret h nm pr hmem k v hkv
    · -- no flush
      cases hm : matchField line with
      | some kv =>
        obtain ⟨k2, v2⟩ := kv
        rw [hm] at h
        refine ih ret0 (alistSet pkg0 k2 v2) hret ?_ ret h nm pr hmem k v hkv
        intro k3 v3 hkv3
        rcases mem_alistSet pkg0 k2 v2 (k3, v3) hkv3 with hin | hnew
        · exact hpkg k3 v3 hin
        · injection hnew with e1 e2
          exact e1 ▸ matchField_key line k2 v2 hm
      | none =>
        rw [hm] at h
        exact ih ret0 pkg0 hret hpkg ret h nm pr hmem k v hkv

/-- The status loop returns the first good accumulator among the
checkpoint sequence starting from the given accumulator. -/
theorem gpgLoop_eq_find :
    ∀ (lines : List StatusLine) (ret : SigAcc),
    gpgLoop ret lines = (specCheckpoints ret lines).find? goodAcc := by
  intro lines
  induction lines with
  | nil =>
    intro ret
    cases hg : goodAcc ret <;> simp [gpgLoop, specCheckpoints, List.find?, hg]
  | cons l rest ih =>
    intro ret
    cases l with
    | irrelevant => simp only [gpgLoop, specCheckpoints]; exact ih ret
    | newsig =>
      cases hg : goodAcc ret <;>
        simp [gpgLoop, specCheckpoints, List.find?, hg, ih []]
    | stat opcode r => simp only [gpgLoop, specCheckpoints]; exact ih (alistSet ret opcode r)

/-- Behavior of add on an existing canonical name: the state always gets
the mtime merge, and the error payload is governed by the comparison of
the useful-attribute tuples. -/
theorem addF_on_existing (fuel : Nat) (fs : Fs) (ti0 : TarEntry) (cont : Option ByteSeq)
    (n : String) (ex : TarEntry) (exc : Option ByteSeq)
    (hb : buildPathF fuel fs ti0.name = some n)
    (hl : lookupFs fs n = some (ex, exc)) :
    addF fuel fs ti0 cont =
      (if usefulBeq (extract_useful { ti0 with name := n, uname := "", gname := "" })
          (extract_useful ex) = true
       then some (mapMtimeMax fs n ti0.mtime, none)
       else some (mapMtimeMax fs n ti0.mtime, some n)) := by
  unfold addF
  rw [hb]
  dsimp only
  rw [hl]
  dsimp only
  by_cases hc : usefulBeq (extract_useful { ti0 with name := n, uname := "", gname := "" })
      (extract_useful ex) = true
  · have hc2 : usefulBeq (extract_useful { ti0 with name := n, uname := "", gname := "" })
        (extract_useful { ex with mtime := max ex.mtime ti0.mtime }) = true := hc
    rw [if_pos hc2, if_pos hc]
  · have hc2 : ¬ usefulBeq (extract_useful { ti0 with name := n, uname := "", gname := "" })
        (extract_useful { ex with mtime := max ex.mtime ti0.mtime }) = true := hc
    rw [if_neg hc2, if_neg hc]

/-- The merged state looks up the collision key at the merged mtime. -/
theorem lookupFs_after_merge (fs : Fs) (n : String) (m : Nat) (ex : TarEntry)
    (exc : Option ByteSeq) (hl : lookupFs fs n = some (ex, exc)) :
    lookupFs (mapMtimeMax fs n m) n = some ({ ex with mtime := max ex.mtime m }, exc) := by
  rw [lookupFs_mapMtimeMax, hl]
  simp

/-! ## Claim C1 -/

/-- C1: when Filesystem.add is called on an entry whose canonical name n
already exists, then (a) if the normalized entry and the stored entry have
the same useful-attribute tuple, the call succeeds and is a no-op except
that the stored mtime becomes the maximum of the stored and added mtimes
(every other key is untouched), and (b) if the tuples differ, the call
raises the fatal merge-conflict error carrying n. -/
theorem c1_add_merge (fuel : Nat) (fs : Fs) (ti0 : TarEntry) (cont : Option ByteSeq)
    (n : String) (ex : TarEntry) (exc : Option ByteSeq)
    (hb : buildPathF fuel fs ti0.name = some n)
    (hl : lookupFs fs n = some (ex, exc)) :
    (usefulBeq (extract_useful { ti0 with name := n, uname := "", gname := "" })
        (extract_useful ex) = true →
      addF fuel fs ti0 cont = some (mapMtimeMax fs n ti0.mtime, none) ∧
      lookupFs (mapMtimeMax fs n ti0.mtime) n =
        some ({ ex with mtime := max ex.mtime ti0.mtime }, exc) ∧
      ∀ k, k ≠ n → lookupFs (mapMtimeMax fs n ti0.mtime) k = lookupFs fs k) ∧
    (usefulBeq (extract_useful { ti0 with name := n, uname := "", gname := "" })
        (extract_useful ex) = false →
      addF fuel fs ti0 cont = some (mapMtimeMax fs n ti0.mtime, some n)) := by
  have hother : ∀ k, k ≠ n → lookupFs (mapMtimeMax fs n ti0.mtime) k = lookupFs fs k := by
    intro k hk
    rw [lookupFs_mapMtimeMax]
    cases lookupFs fs k with
    | none => rfl
    | some p => simp [hk]
  rw [addF_on_existing fuel fs ti0 cont n ex exc hb hl]
  constructor
  · intro hgood
    rw [if_pos hgood]
    exact ⟨rfl, lookupFs_after_merge fs n ti0.mtime ex exc hl, hother⟩
  · intro hbad
    rw [if_neg (by simp [hbad])]

/-- C1 witness: re-adding a/b with identical useful attributes and mtime 9
merges into the stored entry without error, raising the mtime to 9. -/
theorem c1_add_merge_witness :
    addF 5 fsA tiMatch none = some (mapMtimeMax fsA "a/b" tiMatch.mtime, none) ∧
    lookupFs (mapMtimeMax fsA "a/b" tiMatch.mtime) "a/b" =
      some ({ dirEntryAB with mtime := max dirEntryAB.mtime tiMatch.mtime }, none) := by
  have h := (c1_add_merge 5 fsA tiMatch none "a/b" dirEntryAB none rfl rfl).1 (by decide)
  exact ⟨h.1, h.2.1⟩

/-! ## Claim C9 -/

/-- C9: when add hits a canonical-name collision with differing useful
attributes, the stored mtime is still raised to the maximum of the two
mtimes before the fatal error is raised: the state returned along the
error path carries the merged mtime. -/
theorem c9_conflict_bumps_mtime (fuel : Nat) (fs : Fs) (ti0 : TarEntry) (cont : Option ByteSeq)
    (n : String) (ex : TarEntry) (exc : Option ByteSeq)
    (hb : buildPathF fuel fs ti0.name = some n)
    (hl : lookupFs fs n = some (ex, exc))
    (hbad : usefulBeq (extract_useful { ti0 with name := n, uname := "", gname := "" })
        (extract_useful ex) = false) :
    addF fuel fs ti0 cont = some (mapMtimeMax fs n ti0.mtime, some n) ∧
    lookupFs (mapMtimeMax fs n ti0.mtime) n =
      some ({ ex with mtime := max ex.mtime ti0.mtime }, exc) := by
  refine ⟨?_, lookupFs_after_merge fs n ti0.mtime ex exc hl⟩
  rw [addF_on_existing fuel fs ti0 cont n ex exc hb hl]
  rw [if_neg (by simp [hbad])]

/-- C9 witness: the conflicting re-add of a/b (mode 0o700 against the
stored 0o755) errors out, yet the returned state carries mtime 9. -/
theorem c9_conflict_bumps_mtime_witness :
    addF 5 fsA tiClash none = some (mapMtimeMax fsA "a/b" tiClash.mtime, some "a/b") ∧
    lookupFs (mapMtimeMax fsA "a/b" tiClash.mtime) "a/b" =
      some ({ dirEntryAB with mtime := max dirEntryAB.mtime tiClash.mtime }, none) :=
  c9_conflict_bumps_mtime 5 fsA tiClash none "a/b" dirEntryAB none rfl rfl (by decide)

/-! ## Claim C2 -/

/-- C2 counterexample: the claimed invariant fails on a reachable state.
After mkdir of a/b and then symlink of a to c, the key a/b is stored while
its path prefix a maps to a symlink entry: add never rewrites keys that
were stored before a prefix symlink appeared. -/
theorem c2_counterexample :
    ¬ (∀ fs : Fs, Reach fs → ∀ nm e c, lookupFs fs nm = some (e, c) →
        ∀ p pe pc, lookupFs fs p = some (pe, pc) → startsWithS nm (p ++ "/") = true →
        pe.ttype ≠ SYMTYPE) := by
  intro h
  have h1 : mkdirF 5 ([] : Fs) "a/b" = some (fsA, none) := rfl
  have h2 : symlinkF 5 fsA "a" "c" = some (fsAB, none) := rfl
  have hr : Reach fsAB := Reach.symlink (Reach.mkdir Reach.init h1) h2
  exact h fsAB hr "a/b" dirEntryAB none rfl "a" symEntryA none rfl rfl rfl

/-- C2 (amended): what the code guarantees is an insertion-time property
of the full key, not a persistent prefix invariant: whenever add
canonicalizes a name, the canonical key it stores under does not itself
map, in the filesystem state consulted during canonicalization, to a
symlink entry (the key is a fixed point of resolve). -/
theorem c2_canonical_key_not_symlink (fuel : Nat) (fs : Fs) (name k : String)
    (h : buildPathF fuel fs name = some k) : isSymKey fs k = false := by
  unfold buildPathF at h
  exact buildPathGo_not_sym fuel fs (splitChar '/' name) "" k (splitChar_ne_nil '/' name) h

/-- C2 witness: canonicalizing a/b in fsA lands on the directory key a/b,
which is not a symlink. -/
theorem c2_canonical_key_not_symlink_witness : isSymKey fsA "a/b" = false :=
  c2_canonical_key_not_symlink 5 fsA "a/b" "a/b" rfl

/-! ## Claim C10 -/

/-- C10: resolve terminates only for acyclic symlink states.  The state
reached by symlink of a to a holds a self-referential symlink, and resolve
on a then fails for every fuel bound: the unbounded Python recursion never
terminates on this reachable state. -/
theorem c10_resolve_cycle_diverges :
    symlinkF 5 ([] : Fs) "a" "a" = some (fsCyc, none) ∧
    ∀ fuel : Nat, resolveF fuel fsCyc "a" = none := by
  refine ⟨rfl, ?_⟩
  intro fuel
  induction fuel with
  | zero => rfl
  | succ n ih => exact ih

/-! ## Claim C3 -/

/-- C3 counterexample: the index parser does not retain the multi-arch and
architecture fields.  On a stanza carrying Architecture and Multi-Arch
lines, the parsed record holds only the Package field: neither name is in
the FIELDS tuple the matcher is built from, so both lines are discarded. -/
theorem c3_counterexample :
    packages_dict c3Lines = some [("a", [("Package", "a")])] ∧
    alistGet [(("Package" : String), ("a" : String))] "Architecture" = none ∧
    alistGet [(("Package" : String), ("a" : String))] "Multi-Arch" = none ∧
    ("Architecture" ∉ FIELDS) ∧ ("Multi-Arch" ∉ FIELDS) := by
  refine ⟨rfl, rfl, rfl, ?_, ?_⟩ <;> decide

/-- C3 (amended): the index parser retains only the seven recognized
fields Package, Filename, Version, Priority, SHA256, Depends and
Pre-Depends: every key of every record produced by packages_dict is one of
these, and every other field, Multi-Arch and Architecture included, is
discarded. -/
theorem c3_only_recognized_fields (lines : List String) (ret : List (String × PkgRec))
    (h : packages_dict lines = some ret) :
    ∀ nm pr, (nm, pr) ∈ ret → ∀ k v, (k, v) ∈ pr → k ∈ FIELDS := by
  exact packagesLoop_only_fields lines [] []
    (by intro nm pr hm; cases hm) (by intro k v hm; cases hm) ret h

/-- C3 witness: a record parsed from a Package and a Filename line has its
keys among the recognized fields; instantiated at the Filename key. -/
theorem c3_only_recognized_fields_witness : ("Filename" : String) ∈ FIELDS :=
  c3_only_recognized_fields c3LinesOk [("a", c3RecOk)] rfl "a" c3RecOk
    (by decide) "Filename" "f" (by decide)

/-! ## Claim C4 -/

/-- C4 counterexample: two remote-disconnects in a row do not surface an
error.  The retry loop of fetch_http keeps reissuing the request, so a
response arriving at the third attempt is returned to the caller, where
the claim demands that the disconnect on the retry propagate. -/
theorem c4_counterexample :
    fetchAttempts [FetchEvent.remoteDisconnected, FetchEvent.remoteDisconnected,
      FetchEvent.response { status := 200 }] = some { status := 200 } := rfl

/-- C4 (amended): the retry loop of fetch_http retries on every
remote-disconnect, without bound: any number of disconnects followed by a
response yields that response, and a sequence of only disconnects never
returns at all (the loop is still running when the outcomes run out). -/
theorem c4_retries_without_bound (n : Nat) (r : HttpResp) (rest : List FetchEvent) :
    fetchAttempts (List.replicate n FetchEvent.remoteDisconnected ++
      FetchEvent.response r :: rest) = some r ∧
    fetchAttempts (List.replicate n FetchEvent.remoteDisconnected) = none := by
  induction n with
  | zero => exact ⟨rfl, rfl⟩
  | succ m ih => simpa [List.replicate_succ, fetchAttempts] using ih

/-! ## Claim C5 -/

/-- C5 counterexample: the disk cache performs no temporary-file rename on
a 200 response.  The concrete trace writes the body directly to the
destination path and contains no rename operation at all, where the claim
demands a write to a temporary file followed by a rename into place. -/
theorem c5_counterexample :
    download_cached_ops "h" "/f" r200 [] =
      some ([CacheOp.mkdirParents "debs/h", CacheOp.writeBytes "debs/h/f" [1],
             CacheOp.utimeSet "debs/h/f" 5], [1]) ∧
    List.all [CacheOp.mkdirParents "debs/h", CacheOp.writeBytes "debs/h/f" [1],
             CacheOp.utimeSet "debs/h/f" 5] (fun op => !(isRenameOp op)) = true := by
  exact ⟨rfl, rfl⟩

/-- C5 (amended): on a 200 response, download_cached creates the parent
directory, writes the body directly to the destination path (no temporary
file, no rename, hence no atomicity against concurrent readers) and then
sets the file mtime to the epoch seconds parsed from the Date header. -/
theorem c5_writes_destination_directly (netloc p : String) (r : HttpResp) (cached : ByteSeq)
    (h : r.status = 200) :
    download_cached_ops netloc p r cached =
      some ([CacheOp.mkdirParents (dirname (cacheDest netloc p)),
             CacheOp.writeBytes (cacheDest netloc p) r.body,
             CacheOp.utimeSet (cacheDest netloc p) r.dateEpoch], r.body) ∧
    List.all [CacheOp.mkdirParents (dirname (cacheDest netloc p)),
             CacheOp.writeBytes (cacheDest netloc p) r.body,
             CacheOp.utimeSet (cacheDest netloc p) r.dateEpoch]
      (fun op => !(isRenameOp op)) = true := by
  constructor
  · unfold download_cached_ops
    rw [if_neg (by rw [h]; decide), if_neg (by rw [h]; simp)]
  · simp [isRenameOp]

/-- C5 witness: the direct-write trace at a concrete 200 response. -/
theorem c5_writes_destination_directly_witness :
    download_cached_ops "h" "/f" r200 [] =
      some ([CacheOp.mkdirParents (dirname (cacheDest "h" "/f")),
             CacheOp.writeBytes (cacheDest "h" "/f") r200.body,
             CacheOp.utimeSet (cacheDest "h" "/f") r200.dateEpoch], r200.body) ∧
    List.all [CacheOp.mkdirParents (dirname (cacheDest "h" "/f")),
             CacheOp.writeBytes (cacheDest "h" "/f") r200.body,
             CacheOp.utimeSet (cacheDest "h" "/f") r200.dateEpoch]
      (fun op => !(isRenameOp op)) = true :=
  c5_writes_destination_directly "h" "/f" r200 [] rfl

/-! ## Claim C6 -/

/-- C6 counterexample: the stated both-directions characterization fails.
In the stream c6Lines both the accumulator at the NEWSIG line and the
final accumulator contain GOODSIG and VALIDSIG, but the verifier returns
the first one: it does not succeed with the final accumulator, although
that accumulator satisfies the right-hand side of the claimed equivalence. -/
theorem c6_counterexample :
    goodAcc c6AccFinal = true ∧
    c6AccFinal ∈ specCheckpoints [] c6Lines ∧
    gpgVerifyCore c6Lines = some c6AccFirst ∧
    gpgVerifyCore c6Lines ≠ some c6AccFinal := by
  refine ⟨rfl, by decide, rfl, by decide⟩

/-- C6 (amended): verification succeeds exactly with the first good
accumulator in checkpoint order: the accumulators in effect at each NEWSIG
line, then the final accumulator after the stream ends; it fails when no
checkpoint contains both GOODSIG and VALIDSIG. -/
theorem c6_first_good_checkpoint (lines : List StatusLine) :
    gpgVerifyCore lines = (specCheckpoints [] lines).find? goodAcc :=
  gpgLoop_eq_find lines []

/-! ## Claim C7 -/

/-- C7 counterexample: name rewriting in the data.tar loop is not the
removal of exactly one leading dot-slash.  On the entry name dot-slash
dot-profile, lstrip with the dot-slash character set yields profile, while
removing exactly one leading dot-slash prefix would yield dot-profile, so
the recorded name and the manifest line both differ from the claim. -/
theorem c7_counterexample :
    unpack_data ["./.profile"] = (["profile"], ["/profile\n"]) ∧
    stripOnceSpec "./.profile" = ".profile" ∧
    ("profile" : String) ≠ ".profile" ∧
    files_manifest ["./.profile"] ≠ transform_name (stripOnceSpec "./.profile") := by
  refine ⟨rfl, rfl, by decide, by decide⟩

/-- C7 (amended): each data.tar entry name has every leading dot and slash
character removed (Python str.lstrip semantics), the sequence of recorded
names is the map of that stripping over the entries, and the synthesized
list body is one line per entry of slash, stripped name and newline, with
a stripped-empty name encoded as the slash-dot line. -/
theorem c7_lstrip_and_manifest (names : List String) :
    (unpack_data names).1 = names.map pyLstripDotSlash ∧
    files_manifest names =
      joinAll (names.map (fun nm => transform_name (pyLstripDotSlash nm))) ∧
    transform_name "" = "/.\n" := by
  refine ⟨?_, ?_, rfl⟩
  · induction names with
    | nil => rfl
    | cons nm rest ih => simp [unpack_data, ih]
  · unfold files_manifest
    have h2 : ∀ l : List String,
        (unpack_data l).2 = l.map (fun nm => transform_name (pyLstripDotSlash nm)) := by
      intro l
      induction l with
      | nil => rfl
      | cons nm rest ih => simp [unpack_data, ih]
    rw [h2]

/-! ## Claim C8 -/

/-- C8: for every header the output filter keeps (any name other than the
two dropped ones), the emitted entry equals the input entry with only its
mtime replaced: by the mtime stored in the filesystem model when a record
for the name exists, and by zero when none does. -/
theorem c8_mtime_rewrite (fs : Fs) (ti : TarEntry)
    (h1 : ti.name ≠ ".dockerenv") (h2 : ti.name ≠ "etc/resolv.conf") :
    mutate_file fs ti = (true, { ti with mtime := modelMtime fs ti.name }) := by
  unfold mutate_file modelMtime
  rw [if_neg h1, if_neg h2]
  cases hl : lookupFs fs ti.name with
  | none => rfl
  | some p =>
    obtain ⟨orig, c⟩ := p
    dsimp only
    by_cases hm : orig.mtime = ti.mtime
    · rw [if_neg (not_not_intro hm), hm]
    · rw [if_pos hm]

/-- C8 witness: a header for a/b with mtime 7 is kept and emitted with the
stored mtime of the model entry for a/b. -/
theorem c8_mtime_rewrite_witness :
    mutate_file fsA wTi = (true, { wTi with mtime := modelMtime fsA wTi.name }) :=
  c8_mtime_rewrite fsA wTi (by decide) (by decide)
